import Mathlib

/-!
# Service locator with a null-object fallback

Shallow embedding of `servicelocatorpatternexamples.h`.

* A `Service*` is modelled by `ServicePtr`: `none` is `nullptr`, `some a` points at the
  object at address `a`.  The addresses are the one of the static
  `ServiceLocator::m_NullService` and those of the objects the caller owns.
* The program state is the static slot `ServiceLocator::m_Service` together with the
  caller-owned objects (a `ServiceNull`, which has no fields, or a `ServiceImplementation`
  with its `uint32_t m_Value`).
* `uint32_t` is a natural number with an explicit `% 2 ^ 32` at the increment.
* Dispatching `Operation()` through a pointer that refers to no object (null or dangling)
  is undefined in C++; the embedding returns `none` there.
-/

namespace ServiceLocatorPattern

/-! ## Data model -/

/-- Address of an object implementing `Service`. -/
inductive Addr where
  /-- Address of the static member `ServiceLocator::m_NullService`. -/
  | m_NullService
  /-- Address of the `n`-th object owned by the caller. -/
  | object (n : Nat)
  deriving DecidableEq, Repr

/-- A value of type `Service*`; `none` is `nullptr`. -/
abbrev ServicePtr := Option Addr

/-- The null pointer constant. -/
abbrev nullptr : ServicePtr := none

/-- Class `ServiceImplementation`: the single field `uint32_t m_Value{0}`. -/
structure ServiceImplementation where
  m_Value : Nat := 0
  deriving DecidableEq, Repr

/-- `ServiceImplementation::Operation`: `++m_Value` on a `uint32_t`. -/
def ServiceImplementation.Operation (self : ServiceImplementation) : ServiceImplementation :=
  { m_Value := (self.m_Value + 1) % 2 ^ 32 }

/-- `ServiceImplementation::GetValue`: `return m_Value`. -/
def ServiceImplementation.GetValue (self : ServiceImplementation) : Nat :=
  self.m_Value

/-- A caller-owned object of one of the two final classes deriving from `Service`. -/
inductive Object where
  /-- A `ServiceNull` instance (the class has no data members). -/
  | serviceNull
  /-- A `ServiceImplementation` instance. -/
  | serviceImplementation (s : ServiceImplementation)
  deriving DecidableEq, Repr

/-- Virtual call `Operation()` on an object: `ServiceNull::Operation` has an empty body,
`ServiceImplementation::Operation` increments the counter. -/
def Object.Operation : Object → Object
  | .serviceNull => .serviceNull
  | .serviceImplementation s => .serviceImplementation s.Operation

/-- Program state: the static slot `ServiceLocator::m_Service` and the caller-owned objects,
the object at address `Addr.object n` being `objects[n]`. The static `m_NullService` has no
data members, so it contributes nothing to the state. -/
structure State where
  m_Service : ServicePtr
  objects : List Object
  deriving DecidableEq, Repr

/-- State after static initialisation, `Service* ServiceLocator::m_Service{&m_NullService}`,
with the given caller-owned objects. -/
def initial (objects : List Object) : State :=
  { m_Service := some Addr.m_NullService, objects := objects }

/-! ## Operations -/

/-- `ServiceLocator::SetService`:
`m_Service = (service == nullptr) ? &m_NullService : service;` -/
def ServiceLocator.SetService (service : ServicePtr) (st : State) : State :=
  { st with m_Service := if service = nullptr then some Addr.m_NullService else service }

/-- `ServiceLocator::GetService`: `return m_Service;` (the state is passed through). -/
def ServiceLocator.GetService (st : State) : ServicePtr × State :=
  (st.m_Service, st)

/-- The call `ptr->Operation()`: virtual dispatch on the object `ptr` refers to.
Undefined (`none`) when `ptr` is null or refers to no object. -/
def Service.Operation (ptr : ServicePtr) (st : State) : Option State :=
  match ptr with
  | none => none
  | some Addr.m_NullService => some st
  | some (Addr.object n) =>
    match st.objects[n]? with
    | none => none
    | some o => some { st with objects := st.objects.set n o.Operation }

/-- The statement `ServiceLocator::GetService()->Operation();` of the test case. -/
def callOperation (st : State) : Option State :=
  let r := ServiceLocator.GetService st
  Service.Operation r.1 r.2

/-- The statement `ServiceLocator::GetService()->Operation();` executed `k` times. -/
def callOperationN : Nat → State → Option State
  | 0, st => some st
  | k + 1, st =>
    match callOperation st with
    | none => none
    | some st1 => callOperationN k st1

/-- The declaration `ServiceImplementation service{};`: a new caller-owned object with
counter 0; returns its address index. -/
def constructService (st : State) : Nat × State :=
  (st.objects.length,
    { st with objects := st.objects ++ [Object.serviceImplementation {}] })

/-- The expression `service.GetValue()` for the caller-owned object at index `n`;
`none` when there is no `ServiceImplementation` there. -/
def getValue (n : Nat) (st : State) : Option Nat :=
  match st.objects[n]? with
  | some (Object.serviceImplementation s) => some s.GetValue
  | _ => none

/-- A sequence of `ServiceLocator::SetService` calls with the given arguments, in order. -/
def setServices : List ServicePtr → State → State
  | [], st => st
  | service :: rest, st => setServices rest (ServiceLocator.SetService service st)

/-- Calls a client issues against the locator. -/
inductive Call where
  /-- `ServiceLocator::SetService(service);` -/
  | setService (service : ServicePtr)
  /-- `ServiceLocator::GetService();` -/
  | getService
  /-- `ServiceLocator::GetService()->Operation();` -/
  | operation
  deriving DecidableEq, Repr

/-- Whether a call is a `SetService` call. -/
def Call.isSetService : Call → Bool
  | .setService _ => true
  | _ => false

/-- Runs a sequence of calls. Returns the final state and the references returned by the
`GetService()` calls made, in order; `none` when an `Operation()` is dispatched through a
pointer that refers to no object. -/
def run : List Call → State → Option (State × List ServicePtr)
  | [], st => some (st, [])
  | Call.setService service :: rest, st => run rest (ServiceLocator.SetService service st)
  | Call.getService :: rest, st =>
    let r := ServiceLocator.GetService st
    match run rest r.2 with
    | none => none
    | some (st1, refs) => some (st1, r.1 :: refs)
  | Call.operation :: rest, st =>
    let r := ServiceLocator.GetService st
    match Service.Operation r.1 r.2 with
    | none => none
    | some st1 =>
      match run rest st1 with
      | none => none
      | some (st2, refs) => some (st2, r.1 :: refs)

/-- State `Unregistered` of the registry: current = NullService singleton. -/
def Unregistered (st : State) : Prop :=
  st.m_Service = some Addr.m_NullService

instance (st : State) : Decidable (Unregistered st) := by
  unfold Unregistered; infer_instance

/-- The slot refers to an object that exists: the static null service or a caller-owned
object. -/
def Dispatchable (st : State) : Prop :=
  match st.m_Service with
  | none => False
  | some Addr.m_NullService => True
  | some (Addr.object n) => n < st.objects.length

instance (st : State) : Decidable (Dispatchable st) := by
  unfold Dispatchable
  split <;> infer_instance

/-- The body of `TEST_CASE("Service Locator - Unit Tests")`: the four values
`service.GetValue()` compared in the `REQUIRE` lines, in order. -/
def testCase (st0 : State) : Option (List (Option Nat)) :=
  let c := constructService st0
  let service := c.1
  let v0 := getValue service c.2
  match callOperation c.2 with
  | none => none
  | some st1 =>
    let v1 := getValue service st1
    let st2 := ServiceLocator.SetService (some (Addr.object service)) st1
    match callOperation st2 with
    | none => none
    | some st3 =>
      let v2 := getValue service st3
      let st4 := ServiceLocator.SetService nullptr st3
      match callOperation st4 with
      | none => none
      | some st5 => some [v0, v1, v2, getValue service st5]

/-- The statement `ptr->Operation();` executed `k` times on a pointer the caller holds
(for a caller-owned `service`, the direct calls `service.Operation()`). -/
def operationN (ptr : ServicePtr) : Nat → State → Option State
  | 0, st => some st
  | k + 1, st =>
    match Service.Operation ptr st with
    | none => none
    | some st1 => operationN ptr k st1

/-- The declaration `ServiceNull service{};`: a new caller-owned null service; returns its
address index. -/
def constructServiceNull (st : State) : Nat × State :=
  (st.objects.length, { st with objects := st.objects ++ [Object.serviceNull] })

/-- Statements a client program is made of. -/
inductive Action where
  /-- `ServiceLocator::SetService(service);` -/
  | setService (service : ServicePtr)
  /-- `ServiceLocator::GetService();` -/
  | getService
  /-- `ServiceLocator::GetService()->Operation();` -/
  | operation
  /-- `ptr->Operation();` on a pointer the caller holds. -/
  | operationOn (ptr : ServicePtr)
  /-- `ServiceImplementation service{};` -/
  | construct
  /-- `ServiceNull service{};` -/
  | constructNull
  deriving DecidableEq, Repr

/-- Effect of one statement on the state; `none` when an `Operation()` is dispatched through
a pointer that refers to no object. -/
def perform : Action → State → Option State
  | Action.setService service, st => some (ServiceLocator.SetService service st)
  | Action.getService, st => some (ServiceLocator.GetService st).2
  | Action.operation, st => callOperation st
  | Action.operationOn ptr, st => Service.Operation ptr st
  | Action.construct, st => some (constructService st).2
  | Action.constructNull, st => some (constructServiceNull st).2

/-- Effect of a sequence of statements, in order. -/
def performAll : List Action → State → Option State
  | [], st => some st
  | act :: rest, st =>
    match perform act st with
    | none => none
    | some st1 => performAll rest st1

/-- A state is reachable when some client program produces it from the state after static
initialisation, in which the caller owns no object yet. -/
def Reachable (st : State) : Prop :=
  ∃ acts : List Action, performAll acts (initial []) = some st

/-! ## Basic facts -/

theorem SetService_m_Service (service : ServicePtr) (st : State) :
    (ServiceLocator.SetService service st).m_Service =
      if service = nullptr then some Addr.m_NullService else service := rfl

theorem SetService_objects (service : ServicePtr) (st : State) :
    (ServiceLocator.SetService service st).objects = st.objects := rfl

theorem setServices_objects (args : List ServicePtr) (st : State) :
    (setServices args st).objects = st.objects := by
  induction args generalizing st with
  | nil => rfl
  | cons a rest ih => simp [setServices, ih, SetService_objects]

theorem setServices_append (xs ys : List ServicePtr) (st : State) :
    setServices (xs ++ ys) st = setServices ys (setServices xs st) := by
  induction xs generalizing st with
  | nil => rfl
  | cons a rest ih => simp [setServices, ih]

theorem SetService_ne_nullptr (service : ServicePtr) (st : State) :
    (ServiceLocator.SetService service st).m_Service ≠ nullptr := by
  cases service <;> simp [ServiceLocator.SetService]

theorem setServices_m_Service_ne_nullptr (args : List ServicePtr) (st : State)
    (h : st.m_Service ≠ nullptr) : (setServices args st).m_Service ≠ nullptr := by
  induction args generalizing st with
  | nil => exact h
  | cons a rest ih => exact ih _ (SetService_ne_nullptr a st)

theorem setServices_concat (args : List ServicePtr) (service : ServicePtr) (st : State) :
    (setServices (args ++ [service]) st).m_Service =
      if service = nullptr then some Addr.m_NullService else service := by
  rw [setServices_append]
  rfl

theorem getValue_SetService (n : Nat) (service : ServicePtr) (st : State) :
    getValue n (ServiceLocator.SetService service st) = getValue n st := rfl

theorem callOperation_m_NullService (st : State)
    (h : st.m_Service = some Addr.m_NullService) : callOperation st = some st := by
  simp [callOperation, ServiceLocator.GetService, h, Service.Operation]

theorem callOperation_object (st : State) (n : Nat) (o : Object)
    (h : st.m_Service = some (Addr.object n)) (ho : st.objects[n]? = some o) :
    callOperation st = some { st with objects := st.objects.set n o.Operation } := by
  simp [callOperation, ServiceLocator.GetService, h, Service.Operation, ho]

theorem getValue_eq_some (n v : Nat) (st : State) :
    getValue n st = some v ↔ st.objects[n]? = some (Object.serviceImplementation ⟨v⟩) := by
  unfold getValue
  cases hn : st.objects[n]? with
  | none => simp
  | some o =>
    cases o with
    | serviceNull => simp
    | serviceImplementation s =>
      cases s
      simp [ServiceImplementation.GetValue]

theorem getValue_set_self (n : Nat) (st : State) (m : ServicePtr) (s : ServiceImplementation)
    (hn : n < st.objects.length) :
    getValue n { m_Service := m, objects := st.objects.set n (Object.serviceImplementation s) } =
      some s.m_Value := by
  simp [getValue, hn, ServiceImplementation.GetValue]

theorem getValue_set_ne (n k : Nat) (st : State) (m : ServicePtr) (o : Object) (hk : k ≠ n) :
    getValue n { m_Service := m, objects := st.objects.set k o } = getValue n st := by
  simp [getValue, List.getElem?_set_ne hk]

theorem lt_length_of_getElem? (xs : List Object) (n : Nat) (o : Object)
    (h : xs[n]? = some o) : n < xs.length := by
  by_contra hlt
  rw [List.getElem?_eq_none (Nat.le_of_not_lt hlt)] at h
  cases h

theorem set_eq_self_of_getElem? (xs : List Object) (n : Nat) (o : Object)
    (h : xs[n]? = some o) : xs.set n o = xs := by
  induction xs generalizing n with
  | nil => rfl
  | cons x rest ih =>
    cases n with
    | zero =>
      simp only [List.getElem?_cons_zero, Option.some.injEq] at h
      simp [h]
    | succ k =>
      simp only [List.getElem?_cons_succ] at h
      simp [ih k h]

theorem Operation_m_Service (ptr : ServicePtr) (st st1 : State)
    (h : Service.Operation ptr st = some st1) : st1.m_Service = st.m_Service := by
  unfold Service.Operation at h
  split at h
  · cases h
  · cases h
    rfl
  · split at h
    · cases h
    · cases h
      rfl

theorem Operation_objects_length (ptr : ServicePtr) (st st1 : State)
    (h : Service.Operation ptr st = some st1) : st1.objects.length = st.objects.length := by
  unfold Service.Operation at h
  split at h
  · cases h
  · cases h
    rfl
  · split at h
    · cases h
    · cases h
      simp

theorem Operation_of_dispatchable (st : State) (hd : Dispatchable st) :
    ∃ st1, Service.Operation st.m_Service st = some st1 := by
  unfold Dispatchable at hd
  cases hm : st.m_Service with
  | none =>
    rw [hm] at hd
    exact hd.elim
  | some a =>
    cases a with
    | m_NullService => exact ⟨st, rfl⟩
    | object n =>
      rw [hm] at hd
      simp only [Service.Operation]
      rw [List.getElem?_eq_getElem hd]
      exact ⟨_, rfl⟩

theorem Dispatchable_of_eq (st st1 : State) (hd : Dispatchable st)
    (hm : st1.m_Service = st.m_Service) (hl : st1.objects.length = st.objects.length) :
    Dispatchable st1 := by
  unfold Dispatchable at hd ⊢
  rw [hm, hl]
  exact hd

theorem run_without_SetService (cs : List Call) (st : State) (hd : Dispatchable st)
    (hcs : ∀ c ∈ cs, c.isSetService = false) :
    ∃ st1 refs, run cs st = some (st1, refs) ∧ refs.length = cs.length ∧
      (∀ r ∈ refs, r = st.m_Service) ∧ st1.m_Service = st.m_Service := by
  induction cs generalizing st with
  | nil => exact ⟨st, [], rfl, rfl, by simp, rfl⟩
  | cons c rest ih =>
    have hrest : ∀ c ∈ rest, c.isSetService = false :=
      fun c hc => hcs c (List.mem_cons_of_mem _ hc)
    cases c with
    | setService service =>
      have := hcs (Call.setService service) (List.mem_cons_self _ _)
      simp [Call.isSetService] at this
    | getService =>
      obtain ⟨st1, refs, hrun, hlen, hrefs, hm⟩ := ih st hd hrest
      refine ⟨st1, st.m_Service :: refs, ?_, by simp [hlen], ?_, hm⟩
      · simp [run, ServiceLocator.GetService, hrun]
      · intro r hr
        rcases List.mem_cons.mp hr with h | h
        · exact h
        · exact hrefs r h
    | operation =>
      obtain ⟨st1, hop⟩ := Operation_of_dispatchable st hd
      have hm1 := Operation_m_Service _ _ _ hop
      have hd1 := Dispatchable_of_eq st st1 hd hm1 (Operation_objects_length _ _ _ hop)
      obtain ⟨st2, refs, hrun, hlen, hrefs, hm⟩ := ih st1 hd1 hrest
      refine ⟨st2, st.m_Service :: refs, ?_, by simp [hlen], ?_, hm.trans hm1⟩
      · simp [run, ServiceLocator.GetService, hop, hrun]
      · intro r hr
        rcases List.mem_cons.mp hr with h | h
        · exact h
        · rw [← hm1]
          exact hrefs r h

theorem run_refs_without_SetService (cs : List Call) (st st1 : State) (refs : List ServicePtr)
    (hcs : ∀ c ∈ cs, c.isSetService = false) (hrun : run cs st = some (st1, refs)) :
    refs.length = cs.length ∧ (∀ r ∈ refs, r = st.m_Service) ∧
      st1.m_Service = st.m_Service := by
  induction cs generalizing st refs with
  | nil =>
    simp only [run, Option.some.injEq, Prod.mk.injEq] at hrun
    obtain ⟨h1, h2⟩ := hrun
    subst h1 h2
    simp
  | cons c rest ih =>
    have hrest : ∀ c ∈ rest, c.isSetService = false :=
      fun c hc => hcs c (List.mem_cons_of_mem _ hc)
    cases c with
    | setService service =>
      have := hcs (Call.setService service) (List.mem_cons_self _ _)
      simp [Call.isSetService] at this
    | getService =>
      simp only [run, ServiceLocator.GetService] at hrun
      cases hr : run rest st with
      | none => simp [hr] at hrun
      | some res =>
        obtain ⟨st2, refs2⟩ := res
        simp only [hr, Option.some.injEq, Prod.mk.injEq] at hrun
        obtain ⟨h1, h2⟩ := hrun
        subst h1 h2
        obtain ⟨hlen, hrefs, hm⟩ := ih st refs2 hrest hr
        refine ⟨by simp [hlen], ?_, hm⟩
        intro r hmem
        rcases List.mem_cons.mp hmem with h | h
        · exact h
        · exact hrefs r h
    | operation =>
      simp only [run, ServiceLocator.GetService] at hrun
      cases hop : Service.Operation st.m_Service st with
      | none => simp [hop] at hrun
      | some st2 =>
        have hm2 := Operation_m_Service _ _ _ hop
        cases hr : run rest st2 with
        | none => simp [hop, hr] at hrun
        | some res =>
          obtain ⟨st3, refs3⟩ := res
          simp only [hop, hr, Option.some.injEq, Prod.mk.injEq] at hrun
          obtain ⟨h1, h2⟩ := hrun
          subst h1 h2
          obtain ⟨hlen, hrefs, hm⟩ := ih st2 refs3 hrest hr
          refine ⟨by simp [hlen], ?_, hm.trans hm2⟩
          intro r hmem
          rcases List.mem_cons.mp hmem with h | h
          · exact h
          · rw [← hm2]
            exact hrefs r h

theorem callOperationN_m_NullService (k : Nat) (st : State)
    (h : st.m_Service = some Addr.m_NullService) : callOperationN k st = some st := by
  induction k with
  | zero => rfl
  | succ k ih => simp [callOperationN, callOperation_m_NullService st h, ih]

/-- The test case passes: started with the slot as statically initialised, the four
`REQUIRE`d values are 0, 0, 1, 1. -/
theorem testCase_initial_nil :
    testCase (initial []) = some [some 0, some 0, some 1, some 1] := by
  decide

/-! ## The claims -/

/-- C1. Non-null invariant: in the state after static initialisation and after every finite
sequence of `SetService` calls issued from it, whatever mix of null and non-null arguments
(the empty sequence included), `GetService()` returns a non-null pointer. -/
theorem C1_getService_never_null (objects : List Object) (args : List ServicePtr) :
    (ServiceLocator.GetService (setServices args (initial objects))).1 ≠ nullptr := by
  apply setServices_m_Service_ne_nullptr
  simp [initial]

/-- C2. `SetService` postcondition: in every state, right after `SetService(nullptr)` the
call `GetService()` returns the address of the NullService singleton, and right after
`SetService(s)` with `s` non-null it returns exactly `s`. -/
theorem C2_SetService_postcondition (st : State) :
    (ServiceLocator.GetService (ServiceLocator.SetService nullptr st)).1
        = some Addr.m_NullService ∧
    ∀ a : Addr,
      (ServiceLocator.GetService (ServiceLocator.SetService (some a) st)).1 = some a := by
  refine ⟨rfl, ?_⟩
  intro a
  simp [ServiceLocator.GetService, ServiceLocator.SetService]

/-- C3, as stated, fails at `a = GetService()` taken in the initial state (the address of the
NullService singleton): after `SetService(a); SetService(nullptr)` the call `GetService()`
returns the singleton, which is `a` itself, so "the singleton and not `a`" is false. -/
theorem C3_not_a_fails_for_singleton :
    (ServiceLocator.GetService (initial [])).1 = some Addr.m_NullService ∧
    ¬ ((ServiceLocator.GetService
          (setServices [some Addr.m_NullService, nullptr] (initial []))).1
        ≠ some Addr.m_NullService) := by
  decide

/-- C3, amended. Trace characterisation (no stack, no undo): after any finite sequence of
`SetService` calls from the initial state, `GetService()` returns the argument of the last
call when there is one and it is non-null, and the NullService singleton otherwise; the
result after a non-empty sequence is the same whatever the earlier calls and the starting
state were. In particular `SetService(a); SetService(nullptr)` yields the singleton, which
differs from `a` whenever `a` is not the singleton's own address. -/
theorem C3_trace_characterisation (objects : List Object) (args : List ServicePtr) :
    (ServiceLocator.GetService (setServices args (initial objects))).1 =
      (match args.getLast? with
       | some (some a) => some a
       | _ => some Addr.m_NullService) ∧
    (∀ (earlier : List ServicePtr) (last : ServicePtr) (st : State),
      (ServiceLocator.GetService (setServices (earlier ++ [last]) st)).1 =
        (ServiceLocator.GetService (ServiceLocator.SetService last (initial objects))).1) ∧
    (∀ a : ServicePtr,
      (ServiceLocator.GetService (setServices [a, nullptr] (initial objects))).1
        = some Addr.m_NullService) ∧
    (∀ a : ServicePtr, a ≠ some Addr.m_NullService →
      (ServiceLocator.GetService (setServices [a, nullptr] (initial objects))).1 ≠ a) := by
  refine ⟨?_, ?_, ?_, ?_⟩
  · rcases List.eq_nil_or_concat args with h | ⟨earlier, last, h⟩
    · subst h
      rfl
    · subst h
      simp only [ServiceLocator.GetService, List.concat_eq_append]
      rw [setServices_concat, List.getLast?_concat]
      cases last <;> simp
  · intro earlier last st
    simp only [ServiceLocator.GetService]
    rw [setServices_concat]
    rfl
  · intro a
    rfl
  · intro a ha hEq
    apply ha
    rw [← hEq]
    rfl

/-- Witness for C3: the object at address 0 is registered and then reset. -/
theorem C3_trace_characterisation_witness :
    (some (Addr.object 0) : ServicePtr) ≠ some Addr.m_NullService ∧
    (ServiceLocator.GetService
        (setServices [some (Addr.object 0), nullptr] (initial []))).1
      ≠ some (Addr.object 0) :=
  ⟨by decide, (C3_trace_characterisation [] []).2.2.2 (some (Addr.object 0)) (by decide)⟩

/-- C4. Default target (Scenario A): before any `SetService` call `GetService()` returns the
NullService singleton; `GetService()->Operation()` then returns normally and leaves the
whole state, hence the counter of every `ServiceImplementation`, unchanged; a freshly
constructed counting service reports 0 before and after that call. -/
theorem C4_default_target (objects : List Object) :
    (ServiceLocator.GetService (initial objects)).1 = some Addr.m_NullService ∧
    callOperation (initial objects) = some (initial objects) ∧
    (∀ n, (callOperation (initial objects)).bind (getValue n)
        = getValue n (initial objects)) ∧
    getValue (constructService (initial objects)).1 (constructService (initial objects)).2
        = some 0 ∧
    (callOperation (constructService (initial objects)).2).bind
        (getValue (constructService (initial objects)).1) = some 0 := by
  have h0 : getValue (constructService (initial objects)).1
      (constructService (initial objects)).2 = some 0 := by
    simp [getValue, constructService, initial, ServiceImplementation.GetValue]
  have h1 : callOperation (initial objects) = some (initial objects) :=
    callOperation_m_NullService _ rfl
  have h2 : callOperation (constructService (initial objects)).2
      = some (constructService (initial objects)).2 :=
    callOperation_m_NullService _ rfl
  refine ⟨rfl, h1, ?_, h0, ?_⟩
  · intro n
    rw [h1]
    rfl
  · rw [h2]
    exact h0

/-- C5. Dispatch to the registered service (Scenario B): for a `ServiceImplementation` at
address `s` whose counter is `c < 2^32 - 1`, after `SetService(&s)` one
`GetService()->Operation()` returns normally and makes `s.GetValue()` equal `c + 1`; a
freshly constructed service goes from 0 to 1. -/
theorem C5_dispatch_registered (st : State) (s c : Nat)
    (hs : getValue s st = some c) (hc : c < 2 ^ 32 - 1) :
    (∃ st1, callOperation (ServiceLocator.SetService (some (Addr.object s)) st) = some st1 ∧
      getValue s st1 = some (c + 1)) ∧
    (callOperation (ServiceLocator.SetService
        (some (Addr.object (constructService st).1)) (constructService st).2)).bind
      (getValue (constructService st).1) = some 1 := by
  constructor
  · rw [getValue_eq_some] at hs
    have hlt := lt_length_of_getElem? _ _ _ hs
    refine ⟨_, callOperation_object _ s _ ?_ hs, ?_⟩
    · simp [ServiceLocator.SetService]
    · simp only [SetService_objects, Object.Operation]
      rw [getValue_set_self s st _ _ hlt]
      simp only [ServiceImplementation.Operation]
      rw [Nat.mod_eq_of_lt (by omega)]
  · have hget : (constructService st).2.objects[(constructService st).1]?
        = some (Object.serviceImplementation {}) := by
      simp [constructService]
    rw [callOperation_object
      (ServiceLocator.SetService (some (Addr.object (constructService st).1))
        (constructService st).2)
      (constructService st).1 _ (by simp [ServiceLocator.SetService]) hget]
    simp [getValue, constructService, Object.Operation, ServiceImplementation.Operation,
      ServiceImplementation.GetValue, SetService_objects]

/-- Witness for C5: the service constructed first in the test case, counter 0. -/
theorem C5_dispatch_registered_witness :
    getValue 0 (initial [Object.serviceImplementation {}]) = some 0 ∧
    (0 : Nat) < 2 ^ 32 - 1 ∧
    ∃ st1, callOperation (ServiceLocator.SetService (some (Addr.object 0))
        (initial [Object.serviceImplementation {}])) = some st1 ∧
      getValue 0 st1 = some (0 + 1) :=
  ⟨by decide, by decide,
    (C5_dispatch_registered (initial [Object.serviceImplementation {}]) 0 0
      (by decide) (by decide)).1⟩

/-- C6. Reset to null (Scenario C): in every state (every reachable one included), after
`SetService(nullptr)` any number `k` of `GetService()->Operation()` calls return normally
and leave the state as it was, so the counter of every `ServiceImplementation`, previously
registered or not, is what it was before the reset; a counter at 1 stays at 1. -/
theorem C6_reset_to_null (st : State) (k : Nat) :
    callOperationN k (ServiceLocator.SetService nullptr st)
        = some (ServiceLocator.SetService nullptr st) ∧
    (∀ n, (callOperationN k (ServiceLocator.SetService nullptr st)).bind (getValue n)
        = getValue n st) ∧
    (callOperationN k (ServiceLocator.SetService nullptr
        { m_Service := some (Addr.object 0),
          objects := [Object.serviceImplementation { m_Value := 1 }] })).bind (getValue 0)
      = some 1 := by
  have h : ∀ st0 : State, callOperationN k (ServiceLocator.SetService nullptr st0)
      = some (ServiceLocator.SetService nullptr st0) :=
    fun st0 => callOperationN_m_NullService k _ rfl
  refine ⟨h st, ?_, ?_⟩
  · intro n
    rw [h]
    rfl
  · rw [h]
    rfl

/-- C7. Replacement (Scenario D): for two distinct `ServiceImplementation` objects `a` and
`b` with counters `va` and `vb`, after `SetService(&a)` then `SetService(&b)` one
`GetService()->Operation()` returns normally, increments the counter of `b` by one (as a
`uint32_t`: `(vb + 1) mod 2^32`, which is `vb + 1` below the maximum) and leaves the counter
of `a` at `va`. -/
theorem C7_replacement (st : State) (a b va vb : Nat) (hab : a ≠ b)
    (ha : getValue a st = some va) (hb : getValue b st = some vb) :
    ∃ st1,
      callOperation (ServiceLocator.SetService (some (Addr.object b))
        (ServiceLocator.SetService (some (Addr.object a)) st)) = some st1 ∧
      getValue b st1 = some ((vb + 1) % 2 ^ 32) ∧
      (vb < 2 ^ 32 - 1 → getValue b st1 = some (vb + 1)) ∧
      getValue a st1 = some va := by
  have hb1 := (getValue_eq_some b vb st).mp hb
  have hlt := lt_length_of_getElem? _ _ _ hb1
  refine ⟨_, callOperation_object _ b _ ?_ hb1, ?_, ?_, ?_⟩
  · simp [ServiceLocator.SetService]
  · simp only [SetService_objects, Object.Operation]
    rw [getValue_set_self b st _ _ hlt]
    rfl
  · intro hvb
    simp only [SetService_objects, Object.Operation]
    rw [getValue_set_self b st _ _ hlt]
    simp only [ServiceImplementation.Operation]
    rw [Nat.mod_eq_of_lt (by omega)]
  · simp only [SetService_objects]
    rw [getValue_set_ne a b st _ _ (Ne.symm hab)]
    exact ha

/-- Witness for C7: two fresh services at addresses 0 and 1. -/
theorem C7_replacement_witness :
    ∃ st1,
      callOperation (ServiceLocator.SetService (some (Addr.object 1))
        (ServiceLocator.SetService (some (Addr.object 0))
          (initial [Object.serviceImplementation {}, Object.serviceImplementation {}])))
        = some st1 ∧
      getValue 1 st1 = some ((0 + 1) % 2 ^ 32) ∧
      (0 < 2 ^ 32 - 1 → getValue 1 st1 = some (0 + 1)) ∧
      getValue 0 st1 = some 0 :=
  C7_replacement (initial [Object.serviceImplementation {}, Object.serviceImplementation {}])
    0 1 0 0 (by decide) (by decide) (by decide)

/-- C8. `GetService` stability: take any state and any sequence of `GetService()` and
`GetService()->Operation()` calls without a `SetService` call. Whenever the sequence runs
(no `Operation()` is dispatched through a pointer to no object), every `GetService()` in it
returns the reference the slot held at the start, and the slot holds it at the end; it does
run whenever the slot refers to an existing object. `GetService()` returns the state
unchanged, and an `Operation()` dispatched through any pointer (to a `ServiceNull` or a
`ServiceImplementation`) leaves the slot as it was. -/
theorem C8_getService_stable (st : State) (cs : List Call)
    (hcs : ∀ c ∈ cs, c.isSetService = false) :
    (∀ (st1 : State) (refs : List ServicePtr), run cs st = some (st1, refs) →
      refs.length = cs.length ∧
      (∀ r ∈ refs, r = (ServiceLocator.GetService st).1) ∧
      (ServiceLocator.GetService st1).1 = (ServiceLocator.GetService st).1) ∧
    (Dispatchable st → ∃ st1 refs, run cs st = some (st1, refs)) ∧
    (ServiceLocator.GetService st).2 = st ∧
    (∀ (ptr : ServicePtr) (st1 : State),
      Service.Operation ptr st = some st1 → st1.m_Service = st.m_Service) := by
  refine ⟨?_, ?_, rfl, fun ptr st1 h => Operation_m_Service ptr st st1 h⟩
  · intro st1 refs hrun
    exact run_refs_without_SetService cs st st1 refs hcs hrun
  · intro hd
    obtain ⟨st1, refs, hrun, _⟩ := run_without_SetService cs st hd hcs
    exact ⟨st1, refs, hrun⟩

/-- Witness for C8: a counting service is registered; two lookups around one dispatch. -/
theorem C8_getService_stable_witness :
    run [Call.getService, Call.operation, Call.getService]
        { m_Service := some (Addr.object 0), objects := [Object.serviceImplementation {}] }
      = some ({ m_Service := some (Addr.object 0),
                objects := [Object.serviceImplementation { m_Value := 1 }] },
              [some (Addr.object 0), some (Addr.object 0), some (Addr.object 0)]) ∧
    [some (Addr.object 0), some (Addr.object 0), some (Addr.object 0)].length
      = [Call.getService, Call.operation, Call.getService].length ∧
    (∀ r ∈ [some (Addr.object 0), some (Addr.object 0), some (Addr.object 0)],
      r = (ServiceLocator.GetService
        { m_Service := some (Addr.object 0),
          objects := [Object.serviceImplementation {}] }).1) ∧
    (ServiceLocator.GetService
        { m_Service := some (Addr.object 0),
          objects := [Object.serviceImplementation { m_Value := 1 }] }).1
      = (ServiceLocator.GetService
        { m_Service := some (Addr.object 0),
          objects := [Object.serviceImplementation {}] }).1 :=
  ⟨by decide,
    (C8_getService_stable
      { m_Service := some (Addr.object 0), objects := [Object.serviceImplementation {}] }
      [Call.getService, Call.operation, Call.getService] (by decide)).1
      { m_Service := some (Addr.object 0),
        objects := [Object.serviceImplementation { m_Value := 1 }] }
      [some (Addr.object 0), some (Addr.object 0), some (Addr.object 0)] (by decide)⟩

/-- C9. The null object is inert: in every state `ServiceNull::Operation()`, called on the
static `m_NullService` or on any caller-owned `ServiceNull`, returns normally and leaves the
entire state (the slot and every counter) unchanged. -/
theorem C9_null_object_inert (st : State) :
    Service.Operation (some Addr.m_NullService) st = some st ∧
    (∀ n, st.objects[n]? = some Object.serviceNull →
      Service.Operation (some (Addr.object n)) st = some st) ∧
    Object.Operation Object.serviceNull = Object.serviceNull := by
  refine ⟨rfl, ?_, rfl⟩
  intro n hn
  simp only [Service.Operation, hn, Object.Operation]
  rw [set_eq_self_of_getElem? _ _ _ hn]

/-- Witness for C9: a caller-owned `ServiceNull` beside a counting service at 7. -/
theorem C9_null_object_inert_witness :
    Service.Operation (some (Addr.object 1))
      { m_Service := some (Addr.object 0),
        objects := [Object.serviceImplementation { m_Value := 7 }, Object.serviceNull] }
      = some { m_Service := some (Addr.object 0),
               objects := [Object.serviceImplementation { m_Value := 7 },
                 Object.serviceNull] } :=
  (C9_null_object_inert
    { m_Service := some (Addr.object 0),
      objects := [Object.serviceImplementation { m_Value := 7 }, Object.serviceNull] }).2.1
    1 (by decide)

/-- C10, as stated, fails at `s = GetService()` taken in the initial (Unregistered) state:
`s` is non-null and supplied by a caller, yet after `SetService(s)` the registry is still
Unregistered, the current service being the NullService singleton. -/
theorem C10_singleton_stays_unregistered :
    Unregistered (initial []) ∧
    (ServiceLocator.GetService (initial [])).1 ≠ nullptr ∧
    ¬ ((ServiceLocator.GetService
          (ServiceLocator.SetService (ServiceLocator.GetService (initial [])).1
            (initial []))).1 = (ServiceLocator.GetService (initial [])).1 ∧
       ¬ Unregistered
          (ServiceLocator.SetService (ServiceLocator.GetService (initial [])).1
            (initial []))) := by
  decide

/-- C10, amended. State-machine transition: for every non-null reference `s` other than the
address of the NullService singleton, `SetService(s)` issued in the Unregistered state moves
the registry to Registered: afterwards `GetService()` returns `s` and the registry is not
Unregistered. -/
theorem C10_transition_to_registered (st : State) (s : ServicePtr)
    (_hu : Unregistered st) (hs : s ≠ nullptr) (hn : s ≠ some Addr.m_NullService) :
    (ServiceLocator.GetService (ServiceLocator.SetService s st)).1 = s ∧
    ¬ Unregistered (ServiceLocator.SetService s st) := by
  have h : (ServiceLocator.SetService s st).m_Service = s := by
    simp [ServiceLocator.SetService, hs]
  refine ⟨h, ?_⟩
  unfold Unregistered
  rw [h]
  exact hn

/-- Witness for C10: the first registration of the test case. -/
theorem C10_transition_to_registered_witness :
    Unregistered (initial [Object.serviceImplementation {}]) ∧
    (ServiceLocator.GetService (ServiceLocator.SetService (some (Addr.object 0))
        (initial [Object.serviceImplementation {}]))).1 = some (Addr.object 0) ∧
    ¬ Unregistered (ServiceLocator.SetService (some (Addr.object 0))
        (initial [Object.serviceImplementation {}])) :=
  ⟨by decide,
    C10_transition_to_registered (initial [Object.serviceImplementation {}])
      (some (Addr.object 0)) (by decide) (by decide) (by decide)⟩

/-! ## Reachable states -/

theorem perform_m_Service_ne_nullptr (act : Action) (st st1 : State)
    (h : st.m_Service ≠ nullptr) (hp : perform act st = some st1) :
    st1.m_Service ≠ nullptr := by
  cases act with
  | setService service =>
    simp only [perform, Option.some.injEq] at hp
    subst hp
    exact SetService_ne_nullptr service st
  | getService =>
    simp only [perform, ServiceLocator.GetService, Option.some.injEq] at hp
    subst hp
    exact h
  | operation =>
    simp only [perform, callOperation, ServiceLocator.GetService] at hp
    rw [Operation_m_Service _ _ _ hp]
    exact h
  | operationOn ptr =>
    simp only [perform] at hp
    rw [Operation_m_Service _ _ _ hp]
    exact h
  | construct =>
    simp only [perform, constructService, Option.some.injEq] at hp
    subst hp
    exact h
  | constructNull =>
    simp only [perform, constructServiceNull, Option.some.injEq] at hp
    subst hp
    exact h

theorem performAll_m_Service_ne_nullptr (acts : List Action) (st st1 : State)
    (h : st.m_Service ≠ nullptr) (hp : performAll acts st = some st1) :
    st1.m_Service ≠ nullptr := by
  induction acts generalizing st with
  | nil =>
    simp only [performAll, Option.some.injEq] at hp
    subst hp
    exact h
  | cons act rest ih =>
    simp only [performAll] at hp
    cases hact : perform act st with
    | none => simp [hact] at hp
    | some st2 =>
      simp only [hact] at hp
      exact ih st2 (perform_m_Service_ne_nullptr act st st2 h hact) hp

/-- The non-null invariant on reachable states. -/
theorem Reachable_m_Service_ne_nullptr (st : State) (h : Reachable st) :
    st.m_Service ≠ nullptr := by
  obtain ⟨acts, hacts⟩ := h
  exact performAll_m_Service_ne_nullptr acts (initial []) st (by simp [initial]) hacts

theorem SetService_GetService_of_ne_nullptr (st : State) (h : st.m_Service ≠ nullptr) :
    ServiceLocator.SetService (ServiceLocator.GetService st).1
      (ServiceLocator.GetService st).2 = st := by
  cases st with
  | mk m objects =>
    simp only [ne_eq] at h
    simp [ServiceLocator.SetService, ServiceLocator.GetService, h]

/-- C11. Re-registering the current service is the identity: in every reachable state
`SetService(GetService())` leaves the whole state unchanged, the current service being the
NullService singleton or not. It rests on the non-null invariant: in any state the call is
the identity exactly when the slot is not null. -/
theorem C11_reregister_identity (st : State) (h : Reachable st) :
    ServiceLocator.SetService (ServiceLocator.GetService st).1
        (ServiceLocator.GetService st).2 = st ∧
    (∀ objects : List Object,
      ServiceLocator.SetService (ServiceLocator.GetService (initial objects)).1
        (ServiceLocator.GetService (initial objects)).2 = initial objects) ∧
    (∀ st0 : State,
      ServiceLocator.SetService (ServiceLocator.GetService st0).1
          (ServiceLocator.GetService st0).2 = st0 ↔ st0.m_Service ≠ nullptr) := by
  refine ⟨SetService_GetService_of_ne_nullptr st (Reachable_m_Service_ne_nullptr st h), ?_, ?_⟩
  · intro objects
    exact SetService_GetService_of_ne_nullptr _ (by simp [initial])
  · intro st0
    constructor
    · intro heq hnull
      have h1 := SetService_ne_nullptr (ServiceLocator.GetService st0).1
        (ServiceLocator.GetService st0).2
      rw [heq] at h1
      exact h1 hnull
    · exact SetService_GetService_of_ne_nullptr st0

/-- Witness for C11: the state of the test case after `SetService(&service)`. -/
theorem C11_reregister_identity_witness :
    Reachable { m_Service := some (Addr.object 0),
                objects := [Object.serviceImplementation {}] } ∧
    ServiceLocator.SetService
        (ServiceLocator.GetService
          { m_Service := some (Addr.object 0),
            objects := [Object.serviceImplementation {}] }).1
        (ServiceLocator.GetService
          { m_Service := some (Addr.object 0),
            objects := [Object.serviceImplementation {}] }).2
      = { m_Service := some (Addr.object 0), objects := [Object.serviceImplementation {}] } :=
  ⟨⟨[Action.construct, Action.setService (some (Addr.object 0))], by decide⟩,
    (C11_reregister_identity
      { m_Service := some (Addr.object 0), objects := [Object.serviceImplementation {}] }
      ⟨[Action.construct, Action.setService (some (Addr.object 0))], by decide⟩).1⟩

/-! ## Repeated dispatch -/

theorem Operation_serviceImplementation (st : State) (n v : Nat)
    (h : st.objects[n]? = some (Object.serviceImplementation ⟨v⟩)) :
    Service.Operation (some (Addr.object n)) st =
      some { st with objects :=
        st.objects.set n (Object.serviceImplementation ⟨(v + 1) % 2 ^ 32⟩) } := by
  simp [Service.Operation, h, Object.Operation, ServiceImplementation.Operation]

theorem operationN_serviceImplementation (k : Nat) (st : State) (n v : Nat)
    (hv : v < 2 ^ 32) (h : st.objects[n]? = some (Object.serviceImplementation ⟨v⟩)) :
    operationN (some (Addr.object n)) k st =
      some { st with objects :=
        st.objects.set n (Object.serviceImplementation ⟨(v + k) % 2 ^ 32⟩) } := by
  induction k generalizing st v with
  | zero =>
    simp only [operationN, Nat.add_zero, Nat.mod_eq_of_lt hv]
    rw [set_eq_self_of_getElem? _ _ _ h]
  | succ k ih =>
    have hlt := lt_length_of_getElem? _ _ _ h
    simp only [operationN, Operation_serviceImplementation st n v h]
    rw [ih _ ((v + 1) % 2 ^ 32) (Nat.mod_lt _ (by norm_num)) (by simp [hlt])]
    simp only [List.set_set, Nat.mod_add_mod]
    rw [show v + 1 + k = v + (k + 1) by omega]

theorem callOperationN_eq_operationN (k : Nat) (st : State) :
    callOperationN k st = operationN st.m_Service k st := by
  induction k generalizing st with
  | zero => rfl
  | succ k ih =>
    simp only [callOperationN, operationN, callOperation, ServiceLocator.GetService]
    cases hop : Service.Operation st.m_Service st with
    | none => rfl
    | some st1 =>
      simp only
      rw [ih st1, Operation_m_Service _ _ _ hop]

theorem iterate_Operation_m_Value (k : Nat) (s : ServiceImplementation)
    (hs : s.m_Value < 2 ^ 32) :
    (ServiceImplementation.Operation^[k] s).m_Value = (s.m_Value + k) % 2 ^ 32 := by
  induction k with
  | zero =>
    rw [Function.iterate_zero, id, Nat.add_zero]
    exact (Nat.mod_eq_of_lt hs).symm
  | succ k ih =>
    rw [Function.iterate_succ_apply']
    simp only [ServiceImplementation.Operation, ih, Nat.mod_add_mod]
    rfl

/-- C12. Counter arithmetic: for every `k`, calling `Operation()` `k` times on a
`ServiceImplementation` whose counter is 0, directly on the object or through
`GetService()` while it is registered, returns normally every time and makes `GetValue()`
return `k mod 2^32`; one more call at `2^32 - 1` wraps the counter to 0. -/
theorem C12_counter_arithmetic (st : State) (n k : Nat) (h0 : getValue n st = some 0) :
    (operationN (some (Addr.object n)) k st).bind (getValue n) = some (k % 2 ^ 32) ∧
    (callOperationN k (ServiceLocator.SetService (some (Addr.object n)) st)).bind (getValue n)
      = some (k % 2 ^ 32) ∧
    (st.m_Service = some (Addr.object n) →
      (callOperationN k st).bind (getValue n) = some (k % 2 ^ 32)) ∧
    (ServiceImplementation.Operation^[k] {}).GetValue = k % 2 ^ 32 ∧
    (ServiceImplementation.Operation { m_Value := 2 ^ 32 - 1 }).GetValue = 0 := by
  have h1 := (getValue_eq_some n 0 st).mp h0
  have hlt := lt_length_of_getElem? _ _ _ h1
  have hdirect : ∀ st0 : State, st0.objects = st.objects →
      (operationN (some (Addr.object n)) k st0).bind (getValue n) = some (k % 2 ^ 32) := by
    intro st0 hobj
    rw [operationN_serviceImplementation k st0 n 0 (by norm_num) (by rw [hobj]; exact h1)]
    simp only [Option.some_bind, hobj, Nat.zero_add]
    exact getValue_set_self n st _ _ hlt
  refine ⟨hdirect st rfl, ?_, ?_, ?_, ?_⟩
  · rw [callOperationN_eq_operationN]
    have hm : (ServiceLocator.SetService (some (Addr.object n)) st).m_Service
        = some (Addr.object n) := by
      simp [ServiceLocator.SetService]
    rw [hm]
    exact hdirect _ rfl
  · intro hm
    rw [callOperationN_eq_operationN, hm]
    exact hdirect st rfl
  · have := iterate_Operation_m_Value k {} (by norm_num)
    simpa [ServiceImplementation.GetValue] using this
  · simp [ServiceImplementation.Operation, ServiceImplementation.GetValue]

/-- Witness for C12: the registered service of the test case, three calls. -/
theorem C12_counter_arithmetic_witness :
    getValue 0 { m_Service := some (Addr.object 0),
                 objects := [Object.serviceImplementation {}] } = some 0 ∧
    (callOperationN 3 { m_Service := some (Addr.object 0),
                        objects := [Object.serviceImplementation {}] }).bind (getValue 0)
      = some (3 % 2 ^ 32) :=
  ⟨by decide,
    (C12_counter_arithmetic
      { m_Service := some (Addr.object 0), objects := [Object.serviceImplementation {}] }
      0 3 (by decide)).2.2.1 rfl⟩

/-- C13. Registry operations do not touch services: in every state, `SetService` with any
argument and `GetService` leave every caller-owned object, hence the counter of every
`ServiceImplementation`, unchanged; `ServiceImplementation::Operation` on the service at
address `s` returns normally, leaves the slot and every other object (hence every other
counter) unchanged, and changes only the counter of `s`. -/
theorem C13_registry_frame (st : State) :
    (∀ (service : ServicePtr),
      (ServiceLocator.SetService service st).objects = st.objects ∧
      ∀ n, getValue n (ServiceLocator.SetService service st) = getValue n st) ∧
    ((ServiceLocator.GetService st).2.objects = st.objects ∧
      ∀ n, getValue n (ServiceLocator.GetService st).2 = getValue n st) ∧
    (∀ (s v : Nat), getValue s st = some v →
      ∃ st1, Service.Operation (some (Addr.object s)) st = some st1 ∧
        st1.m_Service = st.m_Service ∧
        st1.objects.length = st.objects.length ∧
        (∀ n, n ≠ s → st1.objects[n]? = st.objects[n]?) ∧
        (∀ n, n ≠ s → getValue n st1 = getValue n st) ∧
        getValue s st1 = some ((v + 1) % 2 ^ 32)) := by
  refine ⟨fun service => ⟨rfl, fun n => rfl⟩, ⟨rfl, fun n => rfl⟩, ?_⟩
  intro s v hv
  have h1 := (getValue_eq_some s v st).mp hv
  have hlt := lt_length_of_getElem? _ _ _ h1
  refine ⟨_, Operation_serviceImplementation st s v h1, rfl, by simp, ?_, ?_, ?_⟩
  · intro n hn
    simp [List.getElem?_set_ne (Ne.symm hn)]
  · intro n hn
    exact getValue_set_ne n s st _ _ (Ne.symm hn)
  · exact getValue_set_self s st _ _ hlt

/-- Witness for C13: two counting services at 5 and 9; `Operation()` on the first. -/
theorem C13_registry_frame_witness :
    getValue 0 { m_Service := some (Addr.object 1),
                 objects := [Object.serviceImplementation { m_Value := 5 },
                   Object.serviceImplementation { m_Value := 9 }] } = some 5 ∧
    ∃ st1, Service.Operation (some (Addr.object 0))
        { m_Service := some (Addr.object 1),
          objects := [Object.serviceImplementation { m_Value := 5 },
            Object.serviceImplementation { m_Value := 9 }] } = some st1 ∧
      st1.m_Service = some (Addr.object 1) ∧
      st1.objects.length = 2 ∧
      (∀ n, n ≠ 0 → st1.objects[n]? =
        [Object.serviceImplementation { m_Value := 5 },
          Object.serviceImplementation { m_Value := 9 }][n]?) ∧
      (∀ n, n ≠ 0 → getValue n st1 = getValue n
        { m_Service := some (Addr.object 1),
          objects := [Object.serviceImplementation { m_Value := 5 },
            Object.serviceImplementation { m_Value := 9 }] }) ∧
      getValue 0 st1 = some ((5 + 1) % 2 ^ 32) :=
  ⟨by decide,
    (C13_registry_frame
      { m_Service := some (Addr.object 1),
        objects := [Object.serviceImplementation { m_Value := 5 },
          Object.serviceImplementation { m_Value := 9 }] }).2.2 0 5 (by decide)⟩

end ServiceLocatorPattern
